import Mathlib

/-
Verification of the Ultralytics event-analytics server against its design
specification.

The development is a shallow embedding of the server's TypeScript/JavaScript
source and of its SQL queries into Lean:

  * timestamps are modelled as natural numbers (epoch milliseconds);
    SQL DATE_TRUNC at a granularity is modelled as flooring to a multiple of
    a fixed period length (exact for day/hour granularity);
  * the events table is a list of rows; SQL aggregates (COUNT(DISTINCT ..),
    GROUP BY, MIN) are modelled with list filters, dedup and min;
  * JavaScript number rounding (Math.round(x * 100) / 100) is modelled
    exactly on rationals via floor division;
  * fallible store calls and HTTP handler results are modelled with Except.

Each embedded definition carries the name of the source function it embeds.
-/

deriving instance DecidableEq for Except

namespace Ultralytics

/-- jsRound models JavaScript Math.round on an exact rational: the floor of
q + 1/2, computed by floored integer division so that it evaluates in the
kernel. For q = n/d (d > 0) this is fdiv (2n + d) (2d). -/
def jsRound (q : ℚ) : ℤ :=
  (q.num * 2 + (q.den : ℤ)).fdiv ((q.den : ℤ) * 2)

/-- round2 models the pervasive source idiom Math.round(x * 100) / 100,
rounding a rate to two decimal places. -/
def round2 (q : ℚ) : ℚ :=
  (jsRound (q * 100) : ℚ) / 100

/-- One row of the events table (schema: events(id, name, properties,
session_id, user_id, timestamp)). The property bag is modelled as a list of
key/value pairs; the row id is implicit as the position in the table list.
The field ts is the stored timestamp (occurredAt). -/
structure Event where
  name : String
  properties : List (String × String)
  sessionId : Option String
  userId : Option String
  ts : Nat
deriving DecidableEq, Repr

/-! ## Funnel analyzer (src/services/funnel.ts, analyzeFunnel) -/

/-- One step of a funnel query (interface FunnelStep; property filters are
not used by the executed query and are omitted). -/
structure FunnelStep where
  eventName : String
deriving DecidableEq, Repr, Inhabited

/-- FunnelQuery: ordered steps plus an inclusive time window. -/
structure FunnelQuery where
  steps : List FunnelStep
  startDate : Nat
  endDate : Nat
deriving DecidableEq, Repr

/-- FunnelStepResult, as produced per loop iteration of analyzeFunnel. -/
structure FunnelStepResult where
  step : Nat
  eventName : String
  count : Nat
  conversionRate : ℚ
  dropoffRate : ℚ
deriving DecidableEq, Repr

/-- FunnelResult, the full response of analyzeFunnel. -/
structure FunnelResult where
  steps : List FunnelStepResult
  totalStarted : Nat
  totalCompleted : Nat
  overallConversionRate : ℚ
deriving DecidableEq, Repr

/-- flatStepCount embeds the query that analyzeFunnel actually executes for
every step (the simpleQuery at metrics.ts:745-751):
SELECT COUNT(DISTINCT session_id) FROM events WHERE event_name = $1 AND
timestamp >= $2 AND timestamp <= $3. COUNT(DISTINCT session_id) ignores
NULL session ids, hence the filterMap. -/
def flatStepCount (db : List Event) (nm : String) (s e : Nat) : Nat :=
  (((db.filter fun ev => decide (ev.name = nm ∧ s ≤ ev.ts ∧ ev.ts ≤ e)).filterMap
    (fun ev => ev.sessionId)).dedup).length

/-- funnelStepResults embeds the main loop of analyzeFunnel: prev carries
previousCount and idx the 0-based loop index i. For i = 0 the conversion
rate is 100 and dropoff 0; otherwise conversionRate = count/previousCount*100
(0 when previousCount = 0) and dropoffRate = 100 - conversionRate, both
rounded to two decimals. -/
def funnelStepResults (db : List Event) (s e : Nat) :
    List FunnelStep → Nat → Nat → List FunnelStepResult
  | [], _, _ => []
  | st :: rest, prev, idx =>
    let c := flatStepCount db st.eventName s e
    let conv : ℚ :=
      if idx = 0 then 100 else if 0 < prev then (c : ℚ) / (prev : ℚ) * 100 else 0
    let drop : ℚ := if idx = 0 then 0 else 100 - conv
    { step := idx + 1, eventName := st.eventName, count := c,
      conversionRate := round2 conv, dropoffRate := round2 drop }
      :: funnelStepResults db s e rest c (idx + 1)

/-- analyzeFunnel (src/services/funnel.ts): rejects funnels of fewer than two
steps, otherwise runs the per-step loop and assembles totals.
totalStarted/totalCompleted take the first/last step count (0 on empty), and
overallConversionRate = Math.round(completed/started*10000)/100 when
started > 0, else 0. -/
def analyzeFunnel (q : FunnelQuery) (db : List Event) : Except String FunnelResult :=
  if q.steps.length < 2 then Except.error "Funnel must have at least 2 steps"
  else
    let rs := funnelStepResults db q.startDate q.endDate q.steps 0 0
    let totalStarted : Nat := ((rs.head?).map (fun r => r.count)).getD 0
    let totalCompleted : Nat := ((rs.getLast?).map (fun r => r.count)).getD 0
    let overall : ℚ :=
      if 0 < totalStarted then
        (jsRound ((totalCompleted : ℚ) / (totalStarted : ℚ) * 10000) : ℚ) / 100
      else 0
    Except.ok { steps := rs, totalStarted := totalStarted,
                totalCompleted := totalCompleted, overallConversionRate := overall }

/-- Modelled from the spec (section 4.4): the timestamps at which one session
performs the events of one step inside the window. -/
def stepTimes (db : List Event) (s e : Nat) (sid : String) (nm : String) : List Nat :=
  (db.filter fun ev =>
    decide (ev.sessionId = some sid ∧ ev.name = nm ∧ s ≤ ev.ts ∧ ev.ts ≤ e)).map
    (fun ev => ev.ts)

/-- Modelled from the spec (section 4.4): given the qualifying timestamp t for
the previous step, a session qualifies through the remaining steps when each
next step has an occurrence strictly later than the previous qualifying
timestamp; the earliest such occurrence becomes the new qualifying timestamp. -/
def specQualifyFrom (db : List Event) (s e : Nat) (sid : String) :
    Nat → List FunnelStep → Option Nat
  | t, [] => some t
  | t, st :: rest =>
    match ((stepTimes db s e sid st.eventName).filter (fun u => decide (t < u))).min? with
    | none => none
    | some u => specQualifyFrom db s e sid u rest

/-- Modelled from the spec (section 4.4): the qualifying timestamp of a session
for a whole step prefix: the first step qualifies at its earliest occurrence
in the window; later steps must occur strictly later than the previous
qualifying timestamp. -/
def specQualifies (db : List Event) (s e : Nat) (sid : String) :
    List FunnelStep → Option Nat
  | [] => none
  | st :: rest =>
    match (stepTimes db s e sid st.eventName).min? with
    | none => none
    | some t => specQualifyFrom db s e sid t rest

/-- Modelled from the spec (section 4.4): count of step i of an ordering-aware
funnel: the number of distinct sessions whose qualifying-timestamp chain
exists through the first i steps. -/
def specOrderedStepCount (db : List Event) (q : FunnelQuery) (i : Nat) : Nat :=
  (((db.filterMap (fun ev => ev.sessionId)).dedup).filter
    (fun sid => (specQualifies db q.startDate q.endDate sid (q.steps.take i)).isSome)).length

/-- Concrete funnel data for the ordering scenario of the spec: session A
fires signup at t = 10 and purchase at t = 5 (clock skew). -/
def funnelOrderDb : List Event :=
  [ { name := "signup", properties := [], sessionId := some "A", userId := none, ts := 10 },
    { name := "purchase", properties := [], sessionId := some "A", userId := none, ts := 5 } ]

/-- Concrete two-step funnel query over window [0, 100]. -/
def funnelOrderQuery : FunnelQuery :=
  { steps := [ { eventName := "signup" }, { eventName := "purchase" } ],
    startDate := 0, endDate := 100 }

/-- Concrete funnel data violating monotonicity under flat counting: session
A fires only purchase (at t = 5) and never signup. -/
def funnelMonoDb : List Event :=
  [ { name := "purchase", properties := [], sessionId := some "A", userId := none, ts := 5 } ]

/-- Concrete three-step funnel data: session s1 fires only a; session s2
fires a, b, c in order. Flat per-step counts are [2, 1, 1]. -/
def funnelConvDb : List Event :=
  [ { name := "a", properties := [], sessionId := some "s1", userId := none, ts := 1 },
    { name := "a", properties := [], sessionId := some "s2", userId := none, ts := 1 },
    { name := "b", properties := [], sessionId := some "s2", userId := none, ts := 2 },
    { name := "c", properties := [], sessionId := some "s2", userId := none, ts := 3 } ]

/-- Concrete three-step funnel query over window [0, 100]. -/
def funnelConvQuery : FunnelQuery :=
  { steps := [ { eventName := "a" }, { eventName := "b" }, { eventName := "c" } ],
    startDate := 0, endDate := 100 }

/-- prevCount is the previousCount value seen by iteration i of the
analyzeFunnel loop when the loop was entered with accumulator prev. -/
def prevCount (db : List Event) (s e : Nat) (L : List FunnelStep) (prev i : Nat) : Nat :=
  if i = 0 then prev else flatStepCount db ((L.getD (i - 1) default).eventName) s e

/-- convAt is the unrounded conversion rate computed by iteration i of the
analyzeFunnel loop (counting iterations from loop index idx). -/
def convAt (db : List Event) (s e : Nat) (L : List FunnelStep) (prev idx i : Nat) : ℚ :=
  if idx + i = 0 then 100
  else if 0 < prevCount db s e L prev i then
    (flatStepCount db ((L.getD i default).eventName) s e : ℚ) /
      (prevCount db s e L prev i : ℚ) * 100
  else 0

/-- dropAt is the unrounded dropoff rate computed by iteration i of the
analyzeFunnel loop. -/
def dropAt (db : List Event) (s e : Nat) (L : List FunnelStep) (prev idx i : Nat) : ℚ :=
  if idx + i = 0 then 0 else 100 - convAt db s e L prev idx i

lemma funnelStepResults_length (db : List Event) (s e : Nat) (L : List FunnelStep)
    (prev idx : Nat) : (funnelStepResults db s e L prev idx).length = L.length := by
  induction L generalizing prev idx with
  | nil => simp [funnelStepResults]
  | cons st rest ih => simp [funnelStepResults, ih]

lemma funnelStepResults_getElem (db : List Event) (s e : Nat) (L : List FunnelStep)
    (prev idx i : Nat) (hi : i < L.length) :
    (funnelStepResults db s e L prev idx)[i]? =
      some { step := idx + i + 1,
             eventName := (L.getD i default).eventName,
             count := flatStepCount db ((L.getD i default).eventName) s e,
             conversionRate := round2 (convAt db s e L prev idx i),
             dropoffRate := round2 (dropAt db s e L prev idx i) } := by
  induction L generalizing prev idx i with
  | nil => simp at hi
  | cons st rest ih =>
    cases i with
    | zero =>
      simp [funnelStepResults, convAt, dropAt, prevCount]
    | succ j =>
      have hj : j < rest.length := by simpa using hi
      have := ih (flatStepCount db st.eventName s e) (idx + 1) j hj
      simp only [funnelStepResults, List.getElem?_cons_succ]
      rw [this]
      have hgd : ∀ k, ((st :: rest).getD (k + 1) default) = rest.getD k default := by
        intro k; simp [List.getD]
      have hprev : prevCount db s e rest (flatStepCount db st.eventName s e) j =
          prevCount db s e (st :: rest) prev (j + 1) := by
        cases j with
        | zero => simp [prevCount]
        | succ m => simp [prevCount, hgd]
      have hidx : idx + 1 + j = idx + (j + 1) := by omega
      have hconv : convAt db s e rest (flatStepCount db st.eventName s e) (idx + 1) j =
          convAt db s e (st :: rest) prev idx (j + 1) := by
        simp only [convAt, hprev, hgd, hidx]
      have hdrop : dropAt db s e rest (flatStepCount db st.eventName s e) (idx + 1) j =
          dropAt db s e (st :: rest) prev idx (j + 1) := by
        simp only [dropAt, hconv, hidx]
      simp [hconv, hdrop, hgd, hidx]

/-- Claim C1 (code bug): for the concrete clock-skew scenario from the spec
(session A fires signup at t = 10 and purchase at t = 5, steps
[signup, purchase], window [0, 100]), the executed funnel query counts A
toward step 2 (per-step counts [1, 1]), while the ordering-aware count
required by the spec is 0: analyzeFunnel executes the flat simpleQuery and
ignores qualifying timestamps, contradicting its own in-code description
of counting only sessions that performed all previous steps. -/
theorem funnel_counts_session_firing_steps_out_of_order :
    ((analyzeFunnel funnelOrderQuery funnelOrderDb).toOption.map
      (fun r => r.steps.map (fun st => st.count))) = some [1, 1]
    ∧ specOrderedStepCount funnelOrderDb funnelOrderQuery 2 = 0 := by
  constructor
  · with_unfolding_all decide
  · with_unfolding_all decide

/-- Claim C3 (code bug): per-step funnel counts are not monotonically
non-increasing: on a database where session A fires only purchase, the
funnel [signup, purchase] over window [0, 100] yields counts [0, 1], so
count_2 = 1 exceeds count_1 = 0, because each step is counted by an
independent flat query. -/
theorem funnel_counts_not_monotone :
    ((analyzeFunnel funnelOrderQuery funnelMonoDb).toOption.map
      (fun r => r.steps.map (fun st => st.count))) = some [0, 1]
    ∧ (0 : Nat) < 1 := by
  constructor
  · with_unfolding_all decide
  · decide

/-- Claim C9 (counterexample): conversionRate is computed step-to-step, not
relative to the first step: on funnelConvDb (flat counts [2, 1, 1]) the
third step's conversionRate is 1/1*100 = 100, whereas the claim demands
count_3 / count_1 * 100 = 50. -/
theorem funnel_conversion_rate_not_relative_to_first_step :
    ((analyzeFunnel funnelConvQuery funnelConvDb).toOption.map
      (fun r => r.steps.map (fun st => st.conversionRate))) = some [100, 50, 100]
    ∧ round2 ((1 : ℚ) / 2 * 100) = 50
    ∧ ((50 : ℚ) < 100) := by
  refine ⟨?_, ?_, ?_⟩
  · with_unfolding_all decide
  · with_unfolding_all decide
  · with_unfolding_all decide

/-- Claim C9 (amended): every step result of analyzeFunnel satisfies the
step-to-step formulas: count_i is the flat distinct-session count of step i
in the window; conversionRate_i = round2(count_i / count_{i-1} * 100) with
conversionRate_1 = 100 and 0 when count_{i-1} = 0; and dropoffRate_i =
round2(100 - conversionRate_i-unrounded) for i > 1, else 0 (convAt/dropAt
at prev = 0, idx = 0 are exactly these formulas). -/
theorem funnel_rates_follow_stepwise_formula (q : FunnelQuery) (db : List Event)
    (r : FunnelResult) (h : analyzeFunnel q db = Except.ok r)
    (i : Nat) (hi : i < r.steps.length) :
    r.steps[i]? =
      some { step := i + 1,
             eventName := (q.steps.getD i default).eventName,
             count := flatStepCount db ((q.steps.getD i default).eventName) q.startDate q.endDate,
             conversionRate := round2 (convAt db q.startDate q.endDate q.steps 0 0 i),
             dropoffRate := round2 (dropAt db q.startDate q.endDate q.steps 0 0 i) } := by
  rw [analyzeFunnel] at h
  split at h
  · exact absurd h (by simp)
  · have hr : r.steps = funnelStepResults db q.startDate q.endDate q.steps 0 0 := by
      cases h; rfl
    have hlen : i < q.steps.length := by
      have h2 := hi
      rw [hr, funnelStepResults_length] at h2
      exact h2
    rw [hr]
    have := funnelStepResults_getElem db q.startDate q.endDate q.steps 0 0 i hlen
    simpa using this

/-- funnelConvResult is the full analyzeFunnel output on funnelConvQuery and
funnelConvDb, written as an explicit record. -/
def funnelConvResult : FunnelResult :=
  { steps := [ { step := 1, eventName := "a", count := 2, conversionRate := 100, dropoffRate := 0 },
               { step := 2, eventName := "b", count := 1, conversionRate := 50, dropoffRate := 50 },
               { step := 3, eventName := "c", count := 1, conversionRate := 100, dropoffRate := 0 } ],
    totalStarted := 2, totalCompleted := 1, overallConversionRate := 50 }

/-- Witness for the amended claim C9 at the concrete three-step funnel,
instantiated at step index 2. -/
theorem funnel_rates_follow_stepwise_formula_witness :
    funnelConvResult.steps[2]? =
      some { step := 2 + 1,
             eventName := (funnelConvQuery.steps.getD 2 default).eventName,
             count := flatStepCount funnelConvDb ((funnelConvQuery.steps.getD 2 default).eventName)
               funnelConvQuery.startDate funnelConvQuery.endDate,
             conversionRate := round2 (convAt funnelConvDb funnelConvQuery.startDate
               funnelConvQuery.endDate funnelConvQuery.steps 0 0 2),
             dropoffRate := round2 (dropAt funnelConvDb funnelConvQuery.startDate
               funnelConvQuery.endDate funnelConvQuery.steps 0 0 2) } :=
  funnel_rates_follow_stepwise_formula funnelConvQuery funnelConvDb funnelConvResult
    (by with_unfolding_all decide) 2 (by with_unfolding_all decide)

/-! ## Session bookkeeping (src/db.js, updateSession) -/

/-- One row of the sessions table (schema: sessions(id, started_at,
last_activity_at, event_count)); the id is the key in the table list. -/
structure Session where
  startedAt : Nat
  lastActivityAt : Nat
  eventCount : Nat
deriving DecidableEq, Repr

/-- SessionTable models the sessions table as an association list keyed by
session id. -/
abbrev SessionTable := List (String × Session)

/-- lookupSession models SELECT * FROM sessions WHERE id = $1. -/
def lookupSession (sid : String) : SessionTable → Option Session
  | [] => none
  | (k, v) :: rest => if k = sid then some v else lookupSession sid rest

/-- upsertSessionRow embeds the SQL of updateSession (src/db.js:140-148):
INSERT INTO sessions (id, started_at, last_activity_at, event_count)
VALUES ($1, NOW(), NOW(), 1) ON CONFLICT (id) DO UPDATE SET
last_activity_at = NOW(), event_count = sessions.event_count + 1
RETURNING *. An absent key inserts (now, now, 1); a present key bumps
last_activity_at and event_count, leaving started_at unchanged. -/
def upsertSessionRow (sid : String) (now : Nat) : SessionTable → Session × SessionTable
  | [] => (⟨now, now, 1⟩, [(sid, ⟨now, now, 1⟩)])
  | (k, v) :: rest =>
    if k = sid then
      let r : Session :=
        { startedAt := v.startedAt, lastActivityAt := now, eventCount := v.eventCount + 1 }
      (r, (k, r) :: rest)
    else
      let p := upsertSessionRow sid now rest
      (p.1, (k, v) :: p.2)

/-- updateSession (src/db.js:137-151): returns null and leaves the table
unchanged when the session id is falsy (modelled as none), otherwise runs
the atomic upsert and returns the affected row. -/
def updateSession (sid : Option String) (now : Nat) (tbl : SessionTable) :
    Option Session × SessionTable :=
  match sid with
  | none => (none, tbl)
  | some s =>
    let p := upsertSessionRow s now tbl
    (some p.1, p.2)

lemma lookupSession_upsertSessionRow (sid : String) (now : Nat) (tbl : SessionTable) :
    lookupSession sid (upsertSessionRow sid now tbl).2 =
      some (match lookupSession sid tbl with
            | none => ⟨now, now, 1⟩
            | some v => ⟨v.startedAt, now, v.eventCount + 1⟩) := by
  induction tbl with
  | nil => simp [lookupSession, upsertSessionRow]
  | cons kv rest ih =>
    obtain ⟨k, v⟩ := kv
    by_cases h : k = sid
    · subst h
      simp [lookupSession, upsertSessionRow]
    · simp [lookupSession, upsertSessionRow, h, ih]

lemma upsertSessionRow_fst (sid : String) (now : Nat) (tbl : SessionTable) :
    (upsertSessionRow sid now tbl).1 =
      (match lookupSession sid tbl with
       | none => ⟨now, now, 1⟩
       | some v => ⟨v.startedAt, now, v.eventCount + 1⟩) := by
  induction tbl with
  | nil => simp [lookupSession, upsertSessionRow]
  | cons kv rest ih =>
    obtain ⟨k, v⟩ := kv
    by_cases h : k = sid
    · subst h
      simp [lookupSession, upsertSessionRow]
    · simp [lookupSession, upsertSessionRow, h, ih]

/-- Claim C6 (confirmed): updateSession creates the row as (now, now, 1) when
the session id is absent; when it is present it bumps lastActivityAt to now
and increments eventCount while leaving startedAt unchanged; and after five
sequential events with the same session id the stored row is
(first time, last time, 5). -/
theorem updateSession_upsert_semantics (s : String) (tbl : SessionTable) :
    (∀ now, lookupSession s tbl = none →
        (updateSession (some s) now tbl).1 = some ⟨now, now, 1⟩
        ∧ lookupSession s (updateSession (some s) now tbl).2 = some ⟨now, now, 1⟩)
    ∧ (∀ now v, lookupSession s tbl = some v →
        (updateSession (some s) now tbl).1 = some ⟨v.startedAt, now, v.eventCount + 1⟩
        ∧ lookupSession s (updateSession (some s) now tbl).2 =
            some ⟨v.startedAt, now, v.eventCount + 1⟩)
    ∧ (∀ t1 t2 t3 t4 t5, lookupSession s tbl = none →
        lookupSession s (List.foldl (fun acc t => (updateSession (some s) t acc).2) tbl
          [t1, t2, t3, t4, t5]) = some ⟨t1, t5, 5⟩) := by
  refine ⟨?_, ?_, ?_⟩
  · intro now h
    constructor
    · simp [updateSession, upsertSessionRow_fst, h]
    · simp [updateSession, lookupSession_upsertSessionRow, h]
  · intro now v h
    constructor
    · simp [updateSession, upsertSessionRow_fst, h]
    · simp [updateSession, lookupSession_upsertSessionRow, h]
  · intro t1 t2 t3 t4 t5 h
    simp only [List.foldl, updateSession]
    rw [lookupSession_upsertSessionRow, lookupSession_upsertSessionRow,
        lookupSession_upsertSessionRow, lookupSession_upsertSessionRow,
        lookupSession_upsertSessionRow, h]

/-- Witness for claim C6: five sequential events for a fresh session id s1 at
times 1..5 leave the row (1, 5, 5), and an upsert on an existing row bumps
activity and count only. -/
theorem updateSession_upsert_semantics_witness :
    lookupSession "s1" (List.foldl (fun acc t => (updateSession (some "s1") t acc).2)
      [] [1, 2, 3, 4, 5]) = some ⟨1, 5, 5⟩
    ∧ (updateSession (some "s1") 9 [("s1", ⟨3, 4, 2⟩)]).1 = some ⟨3, 9, 3⟩ := by
  constructor
  · exact (updateSession_upsert_semantics "s1" []).2.2 1 2 3 4 5 (by decide)
  · exact (((updateSession_upsert_semantics "s1" [("s1", ⟨3, 4, 2⟩)]).2.1 9 ⟨3, 4, 2⟩)
      (by decide)).1

/-! ## Ingestion pipeline (src/server.ts: POST /api/events and
POST /api/events/batch handlers; src/db.ts: storeEvent; src/validation.ts) -/

/-- EventInput models one request-body event object: required name, optional
property bag, optional session/user ids, optional client timestamp. The
schema types timestamp as a date-time string or null; it is modelled here
already parsed to epoch milliseconds. Valid date-time strings are nonempty
and hence truthy in JavaScript, so presence alone selects the client
timestamp where the handler tests truthiness. -/
structure EventInput where
  name : String
  properties : Option (List (String × String))
  sessionId : Option String
  userId : Option String
  timestamp : Option Nat
deriving DecidableEq, Repr

/-- nameCharOk embeds the eventSchema name pattern character class
[a-zA-Z0-9_.-] (src/validation.ts:44). -/
def nameCharOk (c : Char) : Bool :=
  c.isAlpha || c.isDigit || c = '_' || c = '.' || c = '-'

/-- validName embeds the eventSchema name constraints: 1..255 characters
drawn from the identifier-like class. -/
def validName (s : String) : Bool :=
  decide (1 ≤ s.length) && decide (s.length ≤ 255) && s.toList.all nameCharOk

/-- eventSchemaValid embeds validateEventData (src/validation.ts eventSchema):
valid name, at most 50 property keys with string values of at most 1000
characters, and session/user ids of at most 255 characters. -/
def eventSchemaValid (ev : EventInput) : Bool :=
  validName ev.name
    && decide ((ev.properties.getD []).length ≤ 50)
    && (ev.properties.getD []).all (fun kv => decide (kv.2.length ≤ 1000))
    && decide ((ev.sessionId.getD "").length ≤ 255)
    && decide ((ev.userId.getD "").length ≤ 255)

/-- batchSchemaValid embeds validateBatchEventData (src/validation.ts
batchEventSchema): 1..10000 items, each eventSchema-valid. -/
def batchSchemaValid (events : List EventInput) : Bool :=
  decide (1 ≤ events.length) && decide (events.length ≤ 10000)
    && events.all eventSchemaValid

/-- ServerState carries the two tables the ingestion handlers write. -/
structure ServerState where
  events : List Event
  sessions : SessionTable
deriving DecidableEq, Repr

/-- storeEvent (src/db.ts:124-134): INSERT INTO events ... RETURNING id; the
id is BIGSERIAL, modelled as the new row count. -/
def storeEvent (ev : Event) (st : ServerState) : Nat × ServerState :=
  (st.events.length + 1, { st with events := st.events ++ [ev] })

/-- storedOf is the event row the batch handler constructs from one input
(src/server.ts:143-149): the stored timestamp is the client timestamp when
present (truthy), else the ingestion time now. -/
def storedOf (now : Nat) (inp : EventInput) : Event :=
  { name := inp.name, properties := inp.properties.getD [],
    sessionId := inp.sessionId, userId := inp.userId,
    ts := inp.timestamp.getD now }

/-- postApiEvents embeds the POST /api/events handler (src/server.ts:87-122):
schema validation, then storeEvent with timestamp := new Date() - the
ingestion time now, with no reference to any client timestamp - and a
session upsert when a session id is present. Returns the assigned event id
and the new state. -/
def postApiEvents (now : Nat) (inp : EventInput) (st : ServerState) :
    Except String (Nat × ServerState) :=
  if eventSchemaValid inp = false then Except.error "Validation failed"
  else
    let ev : Event := { name := inp.name, properties := inp.properties.getD [],
                        sessionId := inp.sessionId, userId := inp.userId, ts := now }
    let p := storeEvent ev st
    let newSessions :=
      match inp.sessionId with
      | some s => (updateSession (some s) now p.2.sessions).2
      | none => p.2.sessions
    Except.ok (p.1, { p.2 with sessions := newSessions })

/-- BatchResponse is the success body of POST /api/events/batch:
eventIds plus count. The handler has no per-item success/failure report. -/
structure BatchResponse where
  eventIds : List Nat
  count : Nat
deriving DecidableEq, Repr

/-- batchInsertLoop embeds the for-of insert loop of the batch handler
(src/server.ts:142-157). A store failure (modelled by the failAt oracle on
the loop index) throws: the loop stops, the response is an error, and the
rows already inserted stay inserted. -/
def batchInsertLoop (failAt : Nat → Bool) (now : Nat) :
    List EventInput → Nat → List Nat → ServerState →
      (Except String (List Nat)) × ServerState
  | [], _, acc, st => (Except.ok acc, st)
  | inp :: rest, i, acc, st =>
    if failAt i then (Except.error "Database error", st)
    else
      let p := storeEvent (storedOf now inp) st
      batchInsertLoop failAt now rest (i + 1) (acc ++ [p.1]) p.2

/-- batchSessionIds embeds the sessionsToUpdate Set: the distinct session ids
of the batch in first-occurrence order. -/
def batchSessionIds (events : List EventInput) : List String :=
  events.foldl
    (fun acc inp =>
      match inp.sessionId with
      | some s => if s ∈ acc then acc else acc ++ [s]
      | none => acc)
    []

/-- postApiEventsBatch embeds the POST /api/events/batch handler
(src/server.ts:125-172): whole-batch schema validation (reject all on
violation), the sequential insert loop, then one updateSession per distinct
session id. On a mid-loop store failure the thrown error reaches the error
middleware: the response carries no per-item breakdown and the session loop
never runs. -/
def postApiEventsBatch (failAt : Nat → Bool) (now : Nat) (events : List EventInput)
    (st : ServerState) : (Except String BatchResponse) × ServerState :=
  if batchSchemaValid events = false then (Except.error "Validation failed", st)
  else
    match batchInsertLoop failAt now events 0 [] st with
    | (Except.error e, st2) => (Except.error e, st2)
    | (Except.ok ids, st2) =>
      let newSessions :=
        (batchSessionIds events).foldl
          (fun t s => (updateSession (some s) now t).2) st2.sessions
      (Except.ok { eventIds := ids, count := ids.length },
        { st2 with sessions := newSessions })

/-- Concrete schema-valid batch of two events on the same session. -/
def batchFailInput : List EventInput :=
  [ { name := "a", properties := none, sessionId := some "s1", userId := none, timestamp := none },
    { name := "b", properties := none, sessionId := some "s1", userId := none, timestamp := none } ]

/-- Concrete schema-valid batch of three events on two distinct sessions. -/
def batchOkInput : List EventInput :=
  [ { name := "a", properties := none, sessionId := some "s1", userId := none, timestamp := none },
    { name := "b", properties := none, sessionId := some "s1", userId := none, timestamp := none },
    { name := "c", properties := none, sessionId := some "s2", userId := none, timestamp := none } ]

/-- Claim C2 (code bug): on a schema-valid batch of two events whose second
store call fails, the handler leaves the first row durably inserted yet
answers with a blanket error carrying no per-item breakdown (succeeded and
failed lists do not exist in the response shape), and updates no session;
on the all-success path the response reports count = N and the sessions
table is upserted once per distinct session id (here two rows of
eventCount 1 for three events), which is the half of the claim the code
does satisfy. -/
theorem batch_partial_failure_lacks_per_item_report :
    (postApiEventsBatch (fun i => i == 1) 100 batchFailInput ⟨[], []⟩).1 =
      Except.error "Database error"
    ∧ (postApiEventsBatch (fun i => i == 1) 100 batchFailInput ⟨[], []⟩).2.events.length = 1
    ∧ (postApiEventsBatch (fun i => i == 1) 100 batchFailInput ⟨[], []⟩).2.sessions = []
    ∧ (postApiEventsBatch (fun _ => false) 100 batchOkInput ⟨[], []⟩).1 =
        Except.ok { eventIds := [1, 2, 3], count := 3 }
    ∧ (postApiEventsBatch (fun _ => false) 100 batchOkInput ⟨[], []⟩).2.sessions =
        [("s1", ⟨100, 100, 1⟩), ("s2", ⟨100, 100, 1⟩)] := by
  refine ⟨?_, ?_, ?_, ?_, ?_⟩ <;> with_unfolding_all decide

/-! ## Stored timestamps and export round-trip (claim C7) -/

/-- eventTuple projects a stored row to the (name, properties, sessionId,
occurredAt) tuple of the round-trip property. -/
def eventTuple (ev : Event) : String × List (String × String) × Option String × Nat :=
  (ev.name, ev.properties, ev.sessionId, ev.ts)

/-- exportUserData embeds the export query of src/services/anonymize.ts
(exportUserData): all events of one user ordered by timestamp ascending,
projected to their tuples (the exported id is dropped, user_id is not part
of the export). -/
def exportUserData (u : String) (db : List Event) :
    List (String × List (String × String) × Option String × Nat) :=
  (List.insertionSort (fun a b => a.ts ≤ b.ts)
    (db.filter fun ev => decide (ev.userId = some u))).map eventTuple

/-- reingestInput rebuilds a batch request item from one exported tuple with
the timestamp preserved. -/
def reingestInput (t : String × List (String × String) × Option String × Nat) : EventInput :=
  { name := t.1, properties := some t.2.1, sessionId := t.2.2.1,
    userId := none, timestamp := some t.2.2.2 }

/-- idsFrom lists the serial ids assigned to n consecutive inserts starting
from a table of base rows. -/
def idsFrom (base n : Nat) : List Nat :=
  (List.range n).map (fun k => base + k + 1)

lemma idsFrom_succ (base n : Nat) :
    idsFrom base (n + 1) = (base + 1) :: idsFrom (base + 1) n := by
  simp only [idsFrom, List.range_succ_eq_map, List.map_cons, List.map_map]
  congr 1
  all_goals first
  | omega
  | (apply List.map_congr_left
     intro k _
     simp only [Function.comp]
     omega)

lemma batchInsertLoop_no_fail (now : Nat) (evs : List EventInput) :
    ∀ (i : Nat) (acc : List Nat) (st : ServerState),
    batchInsertLoop (fun _ => false) now evs i acc st =
      (Except.ok (acc ++ idsFrom st.events.length evs.length),
       { st with events := st.events ++ evs.map (storedOf now) }) := by
  induction evs with
  | nil =>
    intro i acc st
    simp [batchInsertLoop, idsFrom]
  | cons inp rest ih =>
    intro i acc st
    rw [batchInsertLoop]
    simp only [Bool.false_eq_true, if_false]
    rw [ih]
    simp [storeEvent, idsFrom_succ, List.append_assoc]

/-- Concrete single-event ingestion request carrying a client timestamp. -/
def singleTsInput : EventInput :=
  { name := "a", properties := none, sessionId := none, userId := none, timestamp := some 5 }

/-- Claim C7 (counterexample): the single-event path stores occurredAt = 100
(the ingestion time) for a request whose client timestamp is present and
parseable with value 5, contradicting the claim that both ingestion paths
store the client-supplied timestamp whenever one is present. -/
theorem single_ingest_ignores_client_timestamp :
    ((postApiEvents 100 singleTsInput ⟨[], []⟩).toOption.map
      (fun p => p.2.events.map (fun ev => ev.ts))) = some [100]
    ∧ singleTsInput.timestamp = some 5
    ∧ (5 : Nat) < 100 := by
  refine ⟨?_, ?_, ?_⟩ <;> with_unfolding_all decide

/-- Claim C7 (amended): the batch path stores the client timestamp whenever
one is present (else the ingestion time), so export plus batch re-ingestion
with timestamps preserved reproduces the (name, properties, sessionId,
occurredAt) tuples exactly; the single-event path however always stores the
ingestion time, ignoring any client timestamp. -/
theorem ingest_timestamp_amended :
    (∀ (now : Nat) (inp : EventInput) (st : ServerState), eventSchemaValid inp = true →
      (postApiEvents now inp st).toOption.map (fun p => p.2.events) =
        some (st.events ++ [{ name := inp.name, properties := inp.properties.getD [],
                              sessionId := inp.sessionId, userId := inp.userId, ts := now }]))
    ∧ (∀ (now : Nat) (evs : List EventInput) (st : ServerState), batchSchemaValid evs = true →
        (postApiEventsBatch (fun _ => false) now evs st).2.events =
          st.events ++ evs.map (storedOf now))
    ∧ (∀ (now : Nat) (u : String) (db : List Event) (st : ServerState),
        batchSchemaValid ((exportUserData u db).map reingestInput) = true →
        ((postApiEventsBatch (fun _ => false) now ((exportUserData u db).map reingestInput)
          st).2.events.map eventTuple) =
          st.events.map eventTuple ++ exportUserData u db) := by
  have hbatch : ∀ (now : Nat) (evs : List EventInput) (st : ServerState),
      batchSchemaValid evs = true →
      (postApiEventsBatch (fun _ => false) now evs st).2.events =
        st.events ++ evs.map (storedOf now) := by
    intro now evs st h
    rw [postApiEventsBatch, batchInsertLoop_no_fail]
    simp [h]
  refine ⟨?_, hbatch, ?_⟩
  · intro now inp st h
    rw [postApiEvents]
    simp [h, storeEvent, Except.toOption]
  · intro now u db st h
    rw [hbatch now _ st h]
    simp only [List.map_append, List.map_map]
    congr 1
    have : (eventTuple ∘ storedOf now ∘ reingestInput) = id := by
      funext t
      rfl
    rw [this, List.map_id]

/-- Concrete schema-valid batch mixing a client timestamp with a missing one. -/
def batchTsInput : List EventInput :=
  [ { name := "a", properties := none, sessionId := some "s1", userId := none, timestamp := some 7 },
    { name := "b", properties := none, sessionId := none, userId := none, timestamp := none } ]

/-- Concrete events table with two users for the export round-trip. -/
def roundTripDb : List Event :=
  [ { name := "e1", properties := [("k", "v")], sessionId := some "sA", userId := some "u1", ts := 30 },
    { name := "e2", properties := [], sessionId := none, userId := some "u1", ts := 10 },
    { name := "e3", properties := [], sessionId := none, userId := some "u2", ts := 20 } ]

/-- Witness for the amended claim C7 at concrete inputs: the single path
stores the ingestion time 100, the batch path stores timestamp 7 and the
fallback 100, and re-ingesting the export of user u1 reproduces its tuples. -/
theorem ingest_timestamp_amended_witness :
    ((postApiEvents 100 singleTsInput ⟨[], []⟩).toOption.map (fun p => p.2.events) =
      some ([] ++ [{ name := singleTsInput.name,
                     properties := singleTsInput.properties.getD [],
                     sessionId := singleTsInput.sessionId,
                     userId := singleTsInput.userId, ts := 100 }]))
    ∧ ((postApiEventsBatch (fun _ => false) 100 batchTsInput ⟨[], []⟩).2.events =
        [] ++ batchTsInput.map (storedOf 100))
    ∧ (((postApiEventsBatch (fun _ => false) 50
          ((exportUserData "u1" roundTripDb).map reingestInput) ⟨[], []⟩).2.events.map
          eventTuple) =
        ([] : List Event).map eventTuple ++ exportUserData "u1" roundTripDb) :=
  ⟨ingest_timestamp_amended.1 100 singleTsInput ⟨[], []⟩ (by decide),
   ingest_timestamp_amended.2.1 100 batchTsInput ⟨[], []⟩ (by decide),
   ingest_timestamp_amended.2.2 50 "u1" roundTripDb ⟨[], []⟩ (by with_unfolding_all decide)⟩

/-! ## Replay timeline (src/services/replay.ts, getEventTimeline) -/

/-- BucketAcc is one value of the in-memory buckets Map: a running event
count and the per-event-name counts. -/
structure BucketAcc where
  count : Nat
  types : List (String × Nat)
deriving DecidableEq, Repr

/-- TimelineBucket is one element of the getEventTimeline response. -/
structure TimelineBucket where
  bucketStart : Nat
  bucketEnd : Nat
  eventCount : Nat
  eventTypes : List (String × Nat)
deriving DecidableEq, Repr

/-- bumpType embeds bucket.types[row.name] = (bucket.types[row.name] || 0) + 1
on a JavaScript object modelled as an insertion-ordered association list. -/
def bumpType : List (String × Nat) → String → List (String × Nat)
  | [], nm => [(nm, 1)]
  | (k, c) :: rest, nm =>
    if k = nm then (k, c + 1) :: rest else (k, c) :: bumpType rest nm

/-- bumpBucket embeds one iteration of the row loop of getEventTimeline: a
fresh bucket index gets count 0 then is incremented (net count 1, one type
entry); an existing bucket gets its count and the row's type bumped. The
Map keeps insertion order. -/
def bumpBucket : List (Nat × BucketAcc) → Nat → String → List (Nat × BucketAcc)
  | [], idx, nm => [(idx, { count := 1, types := [(nm, 1)] })]
  | (k, d) :: rest, idx, nm =>
    if k = idx then (k, { count := d.count + 1, types := bumpType d.types nm }) :: rest
    else (k, d) :: bumpBucket rest idx nm

/-- getEventTimeline (src/services/replay.ts:290-333): rows with timestamp in
the inclusive window, ordered ascending, folded into buckets keyed by
floor((timestamp - startDate) / bucketSizeMs); every bucket is emitted with
bucketStart = startDate + index * bucketSizeMs and bucketEnd one bucket
width later. Buckets with no event in the window are never created. -/
def getEventTimeline (s e bucketSize : Nat) (db : List Event) : List TimelineBucket :=
  let rows := List.insertionSort (fun a b => a.ts ≤ b.ts)
    (db.filter fun ev => decide (s ≤ ev.ts ∧ ev.ts ≤ e))
  let m := rows.foldl (fun acc r => bumpBucket acc ((r.ts - s) / bucketSize) r.name) []
  m.map fun kd =>
    { bucketStart := s + kd.1 * bucketSize, bucketEnd := s + (kd.1 + 1) * bucketSize,
      eventCount := kd.2.count, eventTypes := kd.2.types }

/-- typesTotal sums the per-event-name counts of a bucket. -/
def typesTotal (l : List (String × Nat)) : Nat :=
  (l.map (fun kv => kv.2)).sum

lemma typesTotal_bumpType (l : List (String × Nat)) (nm : String) :
    typesTotal (bumpType l nm) = typesTotal l + 1 := by
  induction l with
  | nil => simp [bumpType, typesTotal]
  | cons kv rest ih =>
    obtain ⟨k, c⟩ := kv
    by_cases h : k = nm
    · simp [bumpType, h, typesTotal]
      omega
    · simp only [bumpType, if_neg h]
      simp only [typesTotal, List.map_cons, List.sum_cons] at *
      omega

/-- bucketInv holds of a buckets Map whose every entry has a positive count
equal to the sum of its per-name counts. -/
def bucketInv (m : List (Nat × BucketAcc)) : Prop :=
  ∀ kd ∈ m, 1 ≤ kd.2.count ∧ kd.2.count = typesTotal kd.2.types

lemma bucketInv_bumpBucket (m : List (Nat × BucketAcc)) (idx : Nat) (nm : String)
    (h : bucketInv m) : bucketInv (bumpBucket m idx nm) := by
  induction m with
  | nil =>
    intro kd hkd
    simp only [bumpBucket, List.mem_singleton] at hkd
    subst hkd
    simp [typesTotal]
  | cons p rest ih =>
    obtain ⟨k, d⟩ := p
    have hrest : bucketInv rest := fun kd hkd => h kd (List.mem_cons_of_mem _ hkd)
    by_cases hk : k = idx
    · intro kd hkd
      simp only [bumpBucket, if_pos hk, List.mem_cons] at hkd
      rcases hkd with hkd | hkd
      · subst hkd
        have hd := h (k, d) (List.mem_cons_self _ _)
        refine ⟨Nat.le_add_left 1 _, ?_⟩
        show d.count + 1 = typesTotal (bumpType d.types nm)
        rw [typesTotal_bumpType, hd.2]
      · exact hrest kd hkd
    · intro kd hkd
      simp only [bumpBucket, if_neg hk, List.mem_cons] at hkd
      rcases hkd with hkd | hkd
      · subst hkd
        exact h (k, d) (List.mem_cons_self _ _)
      · exact ih hrest kd hkd

lemma bucketInv_foldl (s bucketSize : Nat) (rows : List Event) :
    ∀ m, bucketInv m →
      bucketInv (rows.foldl (fun acc r => bumpBucket acc ((r.ts - s) / bucketSize) r.name) m) := by
  induction rows with
  | nil => intro m hm; simpa using hm
  | cons r rest ih =>
    intro m hm
    simp only [List.foldl_cons]
    exact ih _ (bucketInv_bumpBucket m _ _ hm)

/-- Claim C10 (confirmed): every bucket returned by getEventTimeline has an
eventCount of at least 1 equal to the sum of its per-event-name counts, a
bucketStart of the form startDate + k * bucketSizeMs (k a natural number),
and a width of exactly bucketSizeMs. The positivity hypothesis on
bucketSizeMs keeps the model inside the domain where JavaScript division
produces finite bucket indexes. -/
theorem timeline_buckets_wellformed (s e bucketSize : Nat) (hB : 0 < bucketSize)
    (db : List Event) :
    ∀ b ∈ getEventTimeline s e bucketSize db,
      1 ≤ b.eventCount
      ∧ b.eventCount = typesTotal b.eventTypes
      ∧ (∃ k, b.bucketStart = s + k * bucketSize ∧ b.bucketEnd = b.bucketStart + bucketSize)
      ∧ b.bucketEnd - b.bucketStart = bucketSize := by
  intro b hb
  rw [getEventTimeline] at hb
  obtain ⟨kd, hmem, rfl⟩ := List.mem_map.1 hb
  have hinv := bucketInv_foldl s bucketSize
    (List.insertionSort (fun a b => a.ts ≤ b.ts)
      (db.filter fun ev => decide (s ≤ ev.ts ∧ ev.ts ≤ e))) [] (by intro kd h; simp at h)
  have hkd := hinv kd hmem
  refine ⟨hkd.1, hkd.2, ⟨kd.1, rfl, ?_⟩, ?_⟩
  · simp only
    ring
  · simp only
    have : s + (kd.1 + 1) * bucketSize = s + kd.1 * bucketSize + bucketSize := by ring
    omega

/-- Concrete events table for the timeline witness: names x, y at times
5, 7, 15 with bucket width 10 over window [0, 100]. -/
def timelineDb : List Event :=
  [ { name := "x", properties := [], sessionId := none, userId := none, ts := 5 },
    { name := "y", properties := [], sessionId := none, userId := none, ts := 7 },
    { name := "x", properties := [], sessionId := none, userId := none, ts := 15 } ]

/-- Witness for claim C10 at a concrete timeline: the bucket [0, 10) holds
two events of two names. -/
theorem timeline_buckets_wellformed_witness :
    1 ≤ (⟨0, 10, 2, [("x", 1), ("y", 1)]⟩ : TimelineBucket).eventCount
    ∧ (⟨0, 10, 2, [("x", 1), ("y", 1)]⟩ : TimelineBucket).eventCount =
        typesTotal (⟨0, 10, 2, [("x", 1), ("y", 1)]⟩ : TimelineBucket).eventTypes
    ∧ (∃ k, (⟨0, 10, 2, [("x", 1), ("y", 1)]⟩ : TimelineBucket).bucketStart = 0 + k * 10
        ∧ (⟨0, 10, 2, [("x", 1), ("y", 1)]⟩ : TimelineBucket).bucketEnd =
            (⟨0, 10, 2, [("x", 1), ("y", 1)]⟩ : TimelineBucket).bucketStart + 10)
    ∧ (⟨0, 10, 2, [("x", 1), ("y", 1)]⟩ : TimelineBucket).bucketEnd -
        (⟨0, 10, 2, [("x", 1), ("y", 1)]⟩ : TimelineBucket).bucketStart = 10 :=
  timeline_buckets_wellformed 0 100 10 (by decide) timelineDb
    ⟨0, 10, 2, [("x", 1), ("y", 1)]⟩ (by with_unfolding_all decide)

/-! ## Rollup maintainer (migrations: daily_event_stats / hourly_event_stats /
refresh_dashboard_stats; src/routes/dashboard.ts: canUseMaterializedView,
refreshMaterializedViews, GET /api/dashboard/events-over-time) -/

/-- trunc models SQL DATE_TRUNC: flooring a timestamp to a multiple of a
fixed period length (exact for hour/day granularity). -/
def trunc (period t : Nat) : Nat :=
  t / period * period

/-- statKey is the GROUP BY key of the materialized views: the truncated
bucket start paired with the event name. -/
def statKey (period : Nat) (ev : Event) : Nat × String :=
  (trunc period ev.ts, ev.name)

/-- StatRow is one row of daily_event_stats (day, event_name, event_count,
unique_sessions) or of hourly_event_stats; the unique_users column of the
daily view is not used by any query modelled here and is omitted. -/
structure StatRow where
  bucketStart : Nat
  eventName : String
  eventCount : Nat
  uniqueSessions : Nat
deriving DecidableEq, Repr

/-- statRowOf builds the view row of one group key: the group is every event
whose truncated timestamp and name equal the key. -/
def statRowOf (period : Nat) (es : List Event) (key : Nat × String) : StatRow :=
  let grp := es.filter fun ev => decide (trunc period ev.ts = key.1 ∧ ev.name = key.2)
  { bucketStart := key.1, eventName := key.2, eventCount := grp.length,
    uniqueSessions := ((grp.filterMap (fun ev => ev.sessionId)).dedup).length }

/-- computeStats embeds the view body (migration, CREATE MATERIALIZED VIEW
daily_event_stats): SELECT DATE_TRUNC(period, timestamp), name, COUNT(*),
COUNT(DISTINCT session_id) FROM events GROUP BY 1, 2. -/
def computeStats (period : Nat) (es : List Event) : List StatRow :=
  ((es.map (statKey period)).dedup).map (statRowOf period es)

/-- DashState: the raw events table plus the two materialized views; a view
that does not exist is none, an existing view holds the rows of its last
refresh (possibly stale). -/
structure DashState where
  events : List Event
  dailyView : Option (List StatRow)
  hourlyView : Option (List StatRow)
deriving DecidableEq, Repr

/-- refreshMaterializedViews (src/routes/dashboard.ts:170-176, calling the SQL
function refresh_dashboard_stats): full recompute of both views from the raw
events; the hourly view only covers the trailing seven days. -/
def refreshMaterializedViews (dayLen hourLen now : Nat) (st : DashState) : DashState :=
  { st with
    dailyView := some (computeStats dayLen st.events),
    hourlyView := some (computeStats hourLen
      (st.events.filter fun ev => decide (now - 7 * dayLen ≤ ev.ts))) }

/-- liveEventCount embeds the raw count of the dashboard summary: SELECT
COUNT(*) FROM events WHERE timestamp >= $1 AND timestamp <= $2. -/
def liveEventCount (es : List Event) (s e : Nat) : Nat :=
  (es.filter fun ev => decide (s ≤ ev.ts ∧ ev.ts ≤ e)).length

/-- rollupEventSum embeds the rollup-side count of the dashboard summary:
SELECT SUM(event_count) FROM daily_event_stats WHERE day >= $1 AND
day <= $2. -/
def rollupEventSum (rows : List StatRow) (s e : Nat) : Nat :=
  ((rows.filter fun r => decide (s ≤ r.bucketStart ∧ r.bucketStart ≤ e)).map
    (fun r => r.eventCount)).sum

lemma trunc_le (period t : Nat) : trunc period t ≤ t :=
  Nat.div_mul_le_self t period

lemma trunc_window_iff (period a k t : Nat) (hp : 0 < period) :
    (a * period ≤ trunc period t ∧ trunc period t + 1 ≤ (a + k) * period) ↔
      (a * period ≤ t ∧ t + 1 ≤ (a + k) * period) := by
  constructor
  · rintro ⟨h1, h2⟩
    refine ⟨le_trans h1 (trunc_le _ _), ?_⟩
    have h3 : t / period < a + k := by
      have h4 : t / period * period < (a + k) * period := by
        have := trunc_le period t
        rw [trunc] at h2
        omega
      exact lt_of_mul_lt_mul_right h4 (Nat.zero_le period)
    have h5 : t < (a + k) * period := (Nat.div_lt_iff_lt_mul hp).1 h3
    omega
  · rintro ⟨h1, h2⟩
    have h3 : a ≤ t / period := (Nat.le_div_iff_mul_le hp).2 h1
    have h4 : a * period ≤ trunc period t := by
      rw [trunc]
      exact Nat.mul_le_mul_right period h3
    have h5 := trunc_le period t
    exact ⟨h4, by omega⟩

lemma beqOfDec_eq_decide {α : Type} [DecidableEq α] (a b : α) :
    (@BEq.beq α instBEqOfDecidableEq a b) = decide (a = b) := rfl

lemma count_map_statKey (period : Nat) (es : List Event) (key : Nat × String) :
    (@List.count (Nat × String) instBEqOfDecidableEq key (es.map (statKey period))) =
      (es.filter fun ev => decide (trunc period ev.ts = key.1 ∧ ev.name = key.2)).length := by
  induction es with
  | nil => rfl
  | cons ev rest ih =>
    simp only [List.map_cons, List.count_cons, List.filter_cons]
    by_cases h1 : trunc period ev.ts = key.1 <;> by_cases h2 : ev.name = key.2 <;>
      simp [statKey, h1, h2, beqOfDec_eq_decide, Prod.ext_iff, ih]

lemma rollupEventSum_computeStats (period : Nat) (es : List Event) (s e : Nat) :
    rollupEventSum (computeStats period es) s e =
      es.countP (fun ev => decide (s ≤ trunc period ev.ts ∧ trunc period ev.ts ≤ e)) := by
  have hcountp :
      es.countP (fun ev => decide (s ≤ trunc period ev.ts ∧ trunc period ev.ts ≤ e)) =
        (es.map (statKey period)).countP (fun kk => decide (s ≤ kk.1 ∧ kk.1 ≤ e)) := by
    rw [List.countP_map]
    rfl
  rw [hcountp, ← List.sum_map_count_dedup_filter_eq_countP]
  rw [rollupEventSum, computeStats, List.filter_map, List.map_map]
  have hfil : ((fun r : StatRow => decide (s ≤ r.bucketStart ∧ r.bucketStart ≤ e)) ∘
      statRowOf period es) = (fun kk : Nat × String => decide (s ≤ kk.1 ∧ kk.1 ≤ e)) := by
    funext key
    rfl
  rw [hfil]
  apply congrArg
  apply List.map_congr_left
  intro key hkey
  simp only [Function.comp, statRowOf]
  exact (count_map_statKey period es key).symm

/-- Concrete events table with one event at t = 9 (inside day bucket 0 for a
day length of 10). -/
def rollupDb : List Event :=
  [ { name := "a", properties := [], sessionId := none, userId := none, ts := 9 } ]

/-- Concrete dashboard state holding rollupDb and no views yet. -/
def rollupState : DashState :=
  { events := rollupDb, dailyView := none, hourlyView := none }

/-- Claim C4 (counterexample): immediately after a refresh, the window
[0, 5] (half of day bucket 0, day length 10) has rollup sum 1 but live
count 0: the day bucket lies inside the window by the code's comparison
(day >= start AND day <= end) while the bucket's only event, at t = 9, is
outside, so the rollup sum exceeds the raw count and the claimed equality
after refresh fails on windows that are not day-aligned. -/
theorem rollup_sum_exceeds_live_on_partial_window :
    rollupEventSum ((refreshMaterializedViews 10 1 0 rollupState).dailyView.getD []) 0 5 = 1
    ∧ liveEventCount rollupState.events 0 5 = 0 := by
  constructor <;> with_unfolding_all decide

/-- Claim C4 (amended): for day-aligned windows (start a multiple of the day
length and end the last instant of a whole number of days), the rollup sum
over the window equals the live count immediately after a refresh, and
stays at most the live count as new events are inserted without a
subsequent refresh. -/
theorem rollup_sum_matches_live_on_aligned_windows
    (dayLen hourLen now a k : Nat) (hD : 0 < dayLen) (st : DashState) (s e : Nat)
    (hs : s = a * dayLen) (he : e + 1 = (a + k) * dayLen) :
    rollupEventSum ((refreshMaterializedViews dayLen hourLen now st).dailyView.getD []) s e =
      liveEventCount st.events s e
    ∧ ∀ more : List Event,
        rollupEventSum ((refreshMaterializedViews dayLen hourLen now st).dailyView.getD []) s e ≤
          liveEventCount (st.events ++ more) s e := by
  have hmain : rollupEventSum (computeStats dayLen st.events) s e =
      liveEventCount st.events s e := by
    rw [rollupEventSum_computeStats, liveEventCount, ← List.countP_eq_length_filter]
    apply List.countP_congr
    intro ev _
    simp only [decide_eq_true_eq]
    subst hs
    constructor
    · intro hh
      have h2 := (trunc_window_iff dayLen a k ev.ts hD).1 ⟨hh.1, by omega⟩
      exact ⟨h2.1, by omega⟩
    · intro hh
      have h2 := (trunc_window_iff dayLen a k ev.ts hD).2 ⟨hh.1, by omega⟩
      exact ⟨h2.1, by omega⟩
  have hview : (refreshMaterializedViews dayLen hourLen now st).dailyView.getD [] =
      computeStats dayLen st.events := rfl
  rw [hview]
  refine ⟨hmain, ?_⟩
  intro more
  have hmono : liveEventCount st.events s e ≤ liveEventCount (st.events ++ more) s e := by
    rw [liveEventCount, liveEventCount, List.filter_append, List.length_append]
    exact Nat.le_add_right _ _
  omega

/-- Witness for the amended claim C4: day length 10, aligned window [0, 9],
one event at t = 9, one later insertion at t = 3;
rollup sum = live count = 1 after refresh and 1 <= 2 after the insert. -/
theorem rollup_sum_matches_live_on_aligned_windows_witness :
    rollupEventSum ((refreshMaterializedViews 10 1 0 rollupState).dailyView.getD []) 0 9 =
      liveEventCount rollupState.events 0 9
    ∧ rollupEventSum ((refreshMaterializedViews 10 1 0 rollupState).dailyView.getD []) 0 9 ≤
        liveEventCount (rollupState.events ++
          [{ name := "b", properties := [], sessionId := none, userId := none, ts := 3 }]) 0 9 := by
  have h := rollup_sum_matches_live_on_aligned_windows 10 1 0 0 1 (by decide) rollupState 0 9
    (by decide) (by decide)
  exact ⟨h.1, h.2 [{ name := "b", properties := [], sessionId := none, userId := none, ts := 3 }]⟩

/-! ## Dashboard rollup decision (src/routes/dashboard.ts:
canUseMaterializedView and GET /api/dashboard/events-over-time) -/

/-- canUseMaterializedView (src/routes/dashboard.ts:153-165): SELECT EXISTS
(SELECT FROM pg_matviews WHERE matviewname = $1) - true exactly when the
materialized view exists, with no check of freshness, window coverage or
granularity. -/
def canUseMaterializedView (view : Option (List StatRow)) : Bool :=
  view.isSome

/-- Interval is the query-string interval of events-over-time. -/
inductive Interval where
  | hour
  | day
  | week
  | month
deriving DecidableEq, Repr

/-- GranLens carries the modelled period length of each DATE_TRUNC
granularity. -/
structure GranLens where
  hourLen : Nat
  dayLen : Nat
  weekLen : Nat
  monthLen : Nat
deriving DecidableEq, Repr

/-- intervalLen selects the period length of an interval. -/
def intervalLen (g : GranLens) : Interval → Nat
  | Interval.hour => g.hourLen
  | Interval.day => g.dayLen
  | Interval.week => g.weekLen
  | Interval.month => g.monthLen

/-- rawEventsOverTime embeds the fallback query of events-over-time:
SELECT DATE_TRUNC($1, timestamp), COUNT(*), COUNT(DISTINCT session_id)
FROM events WHERE timestamp >= $2 AND timestamp <= $3 GROUP BY 1 ORDER BY 1. -/
def rawEventsOverTime (len s e : Nat) (es : List Event) : List (Nat × Nat × Nat) :=
  let inWin := es.filter fun ev => decide (s ≤ ev.ts ∧ ev.ts ≤ e)
  let periods := List.insertionSort (fun a b => a ≤ b)
    ((inWin.map (fun ev => trunc len ev.ts)).dedup)
  periods.map fun p =>
    let grp := inWin.filter fun ev => decide (trunc len ev.ts = p)
    (p, grp.length, ((grp.filterMap (fun ev => ev.sessionId)).dedup).length)

/-- viewEventsOverTime embeds the view-backed query of events-over-time:
SELECT day, SUM(event_count), SUM(unique_sessions) FROM daily_event_stats
WHERE day >= $1 AND day <= $2 GROUP BY day ORDER BY day. -/
def viewEventsOverTime (rows : List StatRow) (s e : Nat) : List (Nat × Nat × Nat) :=
  let inWin := rows.filter fun r => decide (s ≤ r.bucketStart ∧ r.bucketStart ≤ e)
  let periods := List.insertionSort (fun a b => a ≤ b)
    ((inWin.map (fun r => r.bucketStart)).dedup)
  periods.map fun p =>
    let grp := inWin.filter fun r => decide (r.bucketStart = p)
    (p, (grp.map (fun r => r.eventCount)).sum, (grp.map (fun r => r.uniqueSessions)).sum)

/-- getEventsOverTime embeds the GET /api/dashboard/events-over-time handler
(src/routes/dashboard.ts:299-388): the daily view is used only when the
interval is day and the view exists, the hourly view only when the interval
is hour and that view exists; in every other case the handler falls back to
the raw-event scan. The Boolean component is the optimized flag of the
response. -/
def getEventsOverTime (g : GranLens) (iv : Interval) (s e : Nat) (st : DashState) :
    Bool × List (Nat × Nat × Nat) :=
  let useDaily := decide (iv = Interval.day) && canUseMaterializedView st.dailyView
  let useHourly := decide (iv = Interval.hour) && canUseMaterializedView st.hourlyView
  if useDaily then (true, viewEventsOverTime (st.dailyView.getD []) s e)
  else if useHourly then (true, viewEventsOverTime (st.hourlyView.getD []) s e)
  else (false, rawEventsOverTime (intervalLen g iv) s e st.events)

/-- Concrete granularity lengths for the dashboard theorems. -/
def demoGrans : GranLens :=
  { hourLen := 1, dayLen := 10, weekLen := 70, monthLen := 300 }

/-- Concrete stale dashboard state: the daily view exists but is empty (it
was refreshed before any event arrived), while the events table holds one
event inside the requested window [0, 10]. -/
def staleState : DashState :=
  { events := [ { name := "a", properties := [], sessionId := some "s1",
                  userId := none, ts := 5 } ],
    dailyView := some [], hourlyView := none }

/-- Claim C8 (counterexample): canUseMaterializedView answers true for the
stale daily view although no rollup data covers the requested window
[0, 10] (the view's rows inside the window form the empty list), and the
handler then trusts the view and returns an empty series while the raw
scan over the same window is nonempty; the decision checks only that the
view exists. -/
theorem canUse_true_without_window_coverage :
    canUseMaterializedView staleState.dailyView = true
    ∧ (staleState.dailyView.getD []).filter
        (fun r => decide (0 ≤ r.bucketStart ∧ r.bucketStart ≤ 10)) = ([] : List StatRow)
    ∧ getEventsOverTime demoGrans Interval.day 0 10 staleState = (true, [])
    ∧ rawEventsOverTime demoGrans.dayLen 0 10 staleState.events = [(0, 1, 1)] := by
  refine ⟨by decide, by decide, by with_unfolding_all decide, by with_unfolding_all decide⟩

/-- Claim C8 (amended): the materialized-view decision is an existence check
only: the handler serves from a view only when the interval granularity
exactly matches an existing view (daily for day, hourly for hour; no
finer-granularity substitution), and whenever the decision is negative the
handler answers from the raw-event scan. -/
theorem events_over_time_falls_back_to_raw_scan (g : GranLens) (iv : Interval)
    (s e : Nat) (st : DashState) :
    ((getEventsOverTime g iv s e st).1 = true →
      (iv = Interval.day ∧ canUseMaterializedView st.dailyView = true)
      ∨ (iv = Interval.hour ∧ canUseMaterializedView st.hourlyView = true))
    ∧ ((getEventsOverTime g iv s e st).1 = false →
      (getEventsOverTime g iv s e st).2 = rawEventsOverTime (intervalLen g iv) s e st.events) := by
  rw [getEventsOverTime]
  by_cases h1 : (decide (iv = Interval.day) && canUseMaterializedView st.dailyView) = true
  · simp only [h1, if_true]
    have h3 : decide (iv = Interval.day) = true ∧ canUseMaterializedView st.dailyView = true := by
      simpa using h1
    refine ⟨fun _ => Or.inl ⟨of_decide_eq_true h3.1, h3.2⟩, ?_⟩
    intro hfalse
    simp at hfalse
  · by_cases h2 : (decide (iv = Interval.hour) && canUseMaterializedView st.hourlyView) = true
    · simp only [h1, h2, if_false, if_true, Bool.false_eq_true]
      have h3 : decide (iv = Interval.hour) = true ∧
          canUseMaterializedView st.hourlyView = true := by
        simpa using h2
      refine ⟨fun _ => Or.inr ⟨of_decide_eq_true h3.1, h3.2⟩, ?_⟩
      intro hfalse
      simp at hfalse
    · simp only [h1, h2, if_false, Bool.false_eq_true]
      refine ⟨?_, fun _ => trivial⟩
      intro htrue
      simp at htrue

/-- Witness for the amended claim C8: on a state with no views at all the
handler reports optimized = false and answers from the raw scan. -/
theorem events_over_time_falls_back_to_raw_scan_witness :
    (getEventsOverTime demoGrans Interval.day 0 10
        { events := staleState.events, dailyView := none, hourlyView := none }).2 =
      rawEventsOverTime (intervalLen demoGrans Interval.day) 0 10 staleState.events :=
  (events_over_time_falls_back_to_raw_scan demoGrans Interval.day 0 10
    { events := staleState.events, dailyView := none, hourlyView := none }).2
    (by with_unfolding_all decide)

/-! ## Cohort analyzer (src/services/cohort.ts, analyzeCohort) -/

/-- CohortQuery: defining and return event names, an inclusive analysis
window, the period length glen modelling the day/week/month granularity,
and the number of periods to report. -/
structure CohortQuery where
  cohortEvent : String
  returnEvent : String
  startDate : Nat
  endDate : Nat
  glen : Nat
  periods : Nat
deriving DecidableEq, Repr

/-- CohortPeriod is one period entry of a cohort row. -/
structure CohortPeriod where
  period : Nat
  count : Nat
  retentionRate : ℚ
deriving DecidableEq, Repr

/-- CohortRow is one row of the result; cohortDate is kept as the bucket
start (the source serializes it to a date string). -/
structure CohortRow where
  cohortDate : Nat
  cohortSize : Nat
  periods : List CohortPeriod
deriving DecidableEq, Repr

/-- CohortResult is the full response of analyzeCohort. -/
structure CohortResult where
  cohorts : List CohortRow
  totalUsers : Nat
  averageRetention : List ℚ
deriving DecidableEq, Repr

/-- definingUsers embeds the cohort_users CTE of the simpleCohortQuery: the
distinct non-null user ids with a defining event inside the window. -/
def definingUsers (q : CohortQuery) (db : List Event) : List String :=
  (db.filterMap fun ev =>
    if ev.name = q.cohortEvent ∧ q.startDate ≤ ev.ts ∧ ev.ts ≤ q.endDate then ev.userId
    else none).dedup

/-- userCohortDate embeds DATE_TRUNC($1, MIN(timestamp)) per user over that
user's defining events in the window. -/
def userCohortDate (q : CohortQuery) (db : List Event) (u : String) : Nat :=
  trunc q.glen
    ((((db.filter fun ev => decide (ev.name = q.cohortEvent ∧ q.startDate ≤ ev.ts ∧
        ev.ts ≤ q.endDate ∧ ev.userId = some u)).map (fun ev => ev.ts)).min?).getD 0)

/-- cohortDates embeds GROUP BY cohort_date ORDER BY cohort_date. -/
def cohortDates (q : CohortQuery) (db : List Event) : List Nat :=
  List.insertionSort (fun a b => a ≤ b)
    (((definingUsers q db).map (userCohortDate q db)).dedup)

/-- cohortSize embeds COUNT(DISTINCT user_id) per cohort_date. -/
def cohortSize (q : CohortQuery) (db : List Event) (d : Nat) : Nat :=
  ((definingUsers q db).filter fun u => decide (userCohortDate q db u = d)).length

/-- retentionCohortUsers embeds the cohort_users CTE of the per-period
retention query (src/services/cohort.ts:459-474): the distinct users with
ANY defining event whose truncation equals the cohort date - unlike the
outer cohort this is not restricted to the analysis window and does not
require the occurrence to be the user's first. -/
def retentionCohortUsers (q : CohortQuery) (db : List Event) (d : Nat) : List String :=
  (db.filterMap fun ev =>
    if ev.name = q.cohortEvent ∧ trunc q.glen ev.ts = d then ev.userId else none).dedup

/-- hasReturnIn embeds the join and window of the retention query: user u
triggers the return event inside [d + p*glen, d + (p+1)*glen). -/
def hasReturnIn (q : CohortQuery) (db : List Event) (d p : Nat) (u : String) : Bool :=
  db.any fun ev => decide (ev.name = q.returnEvent ∧ ev.userId = some u ∧
    d + p * q.glen ≤ ev.ts ∧ ev.ts < d + (p + 1) * q.glen)

/-- periodReturnCount embeds COUNT(DISTINCT e.user_id) of the retention
query. -/
def periodReturnCount (q : CohortQuery) (db : List Event) (d p : Nat) : Nat :=
  ((retentionCohortUsers q db d).filter (hasReturnIn q db d p)).length

/-- rawRetentionRate is the unrounded rate count/cohortSize*100 (0 when the
cohort is empty), as accumulated into periodTotals before rounding. -/
def rawRetentionRate (q : CohortQuery) (db : List Event) (d p : Nat) : ℚ :=
  if 0 < cohortSize q db d then
    (periodReturnCount q db d p : ℚ) / (cohortSize q db d : ℚ) * 100
  else 0

/-- cohortRowOf builds one CohortRow: period entries 0..periods-1 with the
rounded retention rate. -/
def cohortRowOf (q : CohortQuery) (db : List Event) (d : Nat) : CohortRow :=
  { cohortDate := d, cohortSize := cohortSize q db d,
    periods := (List.range q.periods).map fun p =>
      { period := p, count := periodReturnCount q db d p,
        retentionRate := round2 (rawRetentionRate q db d p) } }

/-- analyzeCohort (src/services/cohort.ts:381-516): one row per cohort date
in ascending order, totalUsers the sum of the cohort sizes, and
averageRetention the per-period mean of the unrounded rates over all
cohorts weighted equally, rounded to two decimals (0 with no cohorts). -/
def analyzeCohort (q : CohortQuery) (db : List Event) : CohortResult :=
  let dates := cohortDates q db
  { cohorts := dates.map (cohortRowOf q db),
    totalUsers := (dates.map (cohortSize q db)).sum,
    averageRetention := (List.range q.periods).map fun p =>
      if 0 < dates.length then
        round2 ((dates.map fun d => rawRetentionRate q db d p).sum / (dates.length : ℚ))
      else 0 }

/-- Concrete cohort data: user U signs up at t = 0 (first) and again at
t = 10; user V signs up at t = 10 (first); U returns at t = 12 and V at
t = 11; granularity length 10, window [0, 20], one period. -/
def cohortDb : List Event :=
  [ { name := "signup", properties := [], sessionId := none, userId := some "U", ts := 0 },
    { name := "signup", properties := [], sessionId := none, userId := some "U", ts := 10 },
    { name := "signup", properties := [], sessionId := none, userId := some "V", ts := 10 },
    { name := "login", properties := [], sessionId := none, userId := some "U", ts := 12 },
    { name := "login", properties := [], sessionId := none, userId := some "V", ts := 11 } ]

/-- Concrete cohort query for cohortDb. -/
def cohortQ : CohortQuery :=
  { cohortEvent := "signup", returnEvent := "login", startDate := 0, endDate := 20,
    glen := 10, periods := 1 }

/-- Claim C5 (counterexample): the cohort of bucket 10 has size 1 (only V
first signs up there), yet period 0 counts 2 distinct principals (U is
pulled in through its second signup in the bucket) and reports a retention
rate of 200, exceeding 100: the per-period count is not restricted to the
principals of the cohort. -/
theorem cohort_rate_exceeds_100_when_bucket_shared :
    ((analyzeCohort cohortQ cohortDb).cohorts.map fun r =>
      (r.cohortDate, r.cohortSize, r.periods.map fun pe => (pe.count, pe.retentionRate))) =
      [(0, 1, [(0, (0 : ℚ))]), (10, 1, [(2, (200 : ℚ))])]
    ∧ ((100 : ℚ) < 200) := by
  constructor
  · with_unfolding_all decide
  · with_unfolding_all decide

/-- specPeriodCount restates the per-period count as the cardinality of a set
of principals: those with a defining-event occurrence truncating to the
cohort bucket that triggered the return event inside the half-open interval
[d + p*glen, d + (p+1)*glen). -/
def specPeriodCount (q : CohortQuery) (db : List Event) (d p : Nat) : Nat :=
  ((db.filterMap fun ev =>
      if ev.name = q.cohortEvent ∧ trunc q.glen ev.ts = d then ev.userId
      else none).toFinset.filter
    (fun u => ∃ ev ∈ db, ev.name = q.returnEvent ∧ ev.userId = some u ∧
      d + p * q.glen ≤ ev.ts ∧ ev.ts < d + (p + 1) * q.glen)).card

lemma round2_zero : round2 0 = 0 := by
  with_unfolding_all decide

lemma periodReturnCount_eq_spec (q : CohortQuery) (db : List Event) (d p : Nat) :
    periodReturnCount q db d p = specPeriodCount q db d p := by
  rw [periodReturnCount, specPeriodCount, retentionCohortUsers]
  have hnd : ((db.filterMap fun ev =>
      if ev.name = q.cohortEvent ∧ trunc q.glen ev.ts = d then ev.userId
      else none).dedup.filter (hasReturnIn q db d p)).Nodup :=
    (List.nodup_dedup _).filter _
  rw [← List.toFinset_card_of_nodup hnd]
  congr 1
  ext u
  simp [List.mem_filter, hasReturnIn, List.any_eq_true]

/-- Claim C5 (amended): each period entry of every cohort row reports
period = its index, count = the number of distinct principals with a
defining-event occurrence truncating to the cohort bucket (regardless of
the analysis window or first occurrence) that triggered the return event
inside the half-open interval [d + p*glen, d + (p+1)*glen), and
retentionRate = count/cohortSize*100 rounded to two decimals (0 when
cohortSize = 0); because those principals need not belong to the cohort,
the rate is not bounded by 100. -/
theorem cohort_period_entries_characterized (q : CohortQuery) (db : List Event)
    (r : CohortRow) (hr : r ∈ (analyzeCohort q db).cohorts)
    (i : Nat) (hi : i < r.periods.length) :
    r.periods[i]? = some
      { period := i, count := specPeriodCount q db r.cohortDate i,
        retentionRate := if 0 < r.cohortSize then
            round2 ((specPeriodCount q db r.cohortDate i : ℚ) / (r.cohortSize : ℚ) * 100)
          else 0 } := by
  rw [analyzeCohort] at hr
  obtain ⟨d, hd, rfl⟩ := List.mem_map.1 hr
  have hip : i < q.periods := by
    simpa [cohortRowOf] using hi
  have hrate : round2 (rawRetentionRate q db d i) =
      (if 0 < cohortSize q db d then
        round2 ((specPeriodCount q db d i : ℚ) / (cohortSize q db d : ℚ) * 100)
      else 0) := by
    rw [rawRetentionRate]
    by_cases hsz : 0 < cohortSize q db d
    · rw [if_pos hsz, if_pos hsz, periodReturnCount_eq_spec]
    · rw [if_neg hsz, if_neg hsz, round2_zero]
  show (cohortRowOf q db d).periods[i]? = some
    { period := i, count := specPeriodCount q db d i,
      retentionRate := if 0 < cohortSize q db d then
          round2 ((specPeriodCount q db d i : ℚ) / (cohortSize q db d : ℚ) * 100)
        else 0 }
  rw [← hrate, ← periodReturnCount_eq_spec]
  simp [cohortRowOf, List.getElem?_map, List.getElem?_range hip]

/-- Witness for the amended claim C5 at the concrete cohort data, row of
bucket 10, period 0. -/
theorem cohort_period_entries_characterized_witness :
    (cohortRowOf cohortQ cohortDb 10).periods[0]? = some
      { period := 0,
        count := specPeriodCount cohortQ cohortDb (cohortRowOf cohortQ cohortDb 10).cohortDate 0,
        retentionRate := if 0 < (cohortRowOf cohortQ cohortDb 10).cohortSize then
            round2 ((specPeriodCount cohortQ cohortDb
              (cohortRowOf cohortQ cohortDb 10).cohortDate 0 : ℚ) /
              ((cohortRowOf cohortQ cohortDb 10).cohortSize : ℚ) * 100)
          else 0 } :=
  cohort_period_entries_characterized cohortQ cohortDb (cohortRowOf cohortQ cohortDb 10)
    (by with_unfolding_all decide) 0 (by with_unfolding_all decide)

end Ultralytics
